import Mathlib

/- A verification development for `atest/run_atests.py`, the acceptance-test
runner script of the repository.  Python strings are modelled as `List Char`,
the filesystem as a predicate on paths, and the operating-system services the
script consumes (`os.environ`, `subprocess.call`, `os.path.normpath`,
`tempfile.gettempdir`, the Windows long-path lookup, the `tasks.jar` build
step and the `InterpreterFactory` collaborator) as components of a `World`
record, so that every function of the script becomes a pure Lean function. -/

namespace RunAtests

/-- Python strings are modelled as lists of characters. -/
abbrev Str := List Char

/-- The interpreter descriptor produced by `InterpreterFactory`: the
duck-typed object exposes `name`, `version`, `os`, `path` and `excludes`,
which are the attributes read by `_get_directories` and `_get_arguments`. -/
structure Interpreter where
  name : Str
  version : Str
  os : Str
  path : Str
  excludes : List Str
deriving DecidableEq

/-- Python `os.path.join(a, b)` on POSIX-style paths: `b` wins if absolute,
otherwise the parts are glued with exactly one separator. -/
def osJoin (a b : Str) : Str :=
  if b.head? = some '/' then b
  else if a = [] then b
  else if a.getLast? = some '/' then a ++ b
  else a ++ '/' :: b

/-- Normalisation of the Python 2 `str` line boundaries `'\r\n'`, `'\r'`
and `'\n'` to a single `'\n'`: a carriage return becomes a newline, and a
newline directly following a carriage return (the second half of a
`'\r\n'` pair, tracked by the boolean) is swallowed. -/
def normCR : Bool → Str → Str
  | _, [] => []
  | prevCR, c :: rest =>
    if c = '\r' then '\n' :: normCR true rest
    else if c = '\n' then
      if prevCR then normCR false rest
      else '\n' :: normCR false rest
    else c :: normCR false rest

/-- Python 2 `str.splitlines()`: the string is cut at every `'\r\n'`,
`'\r'` or `'\n'` boundary (via `normCR`), without a trailing empty line for
a trailing boundary and with `[]` for the empty string. -/
def pySplitlines (s : Str) : List Str :=
  let ps := (normCR false s).splitOn '\n'
  if ps.getLast? = some [] then ps.dropLast else ps

/-- Python `line.split(' ', 1)`: at most one split, at the first space.  The
remainder after the first space is kept as a single piece, spaces included. -/
def pySplit1 (s : Str) : List Str :=
  match s.splitOn ' ' with
  | [] => [s]
  | [x] => [x]
  | x :: y :: rest => [x, List.intercalate [' '] (y :: rest)]

/-- The nine lines of the module-level `ARGUMENTS` template after
`.format(interpreter=..., variable_file=..., pythonpath=..., outputdir=...)`
has substituted the placeholders. -/
def ARGUMENTS_lines (i : Interpreter) (variable_file pythonpath outputdir : Str) :
    List Str :=
  [ "--doc Robot Framework acceptance tests".toList,
    "--metadata interpreter:".toList ++ i.name ++ [' '] ++ i.version
      ++ " on ".toList ++ i.os,
    "--variablefile ".toList ++ variable_file ++ [';'] ++ i.path ++ [';']
      ++ i.name ++ [';'] ++ i.version,
    "--pythonpath ".toList ++ pythonpath,
    "--outputdir ".toList ++ outputdir,
    "--splitlog".toList,
    "--console dotted".toList,
    "--SuiteStatLevel 3".toList,
    "--TagStatExclude no-*".toList ]

/-- The formatted `ARGUMENTS` template as one string: the template literal is
exactly its nine lines joined by newlines (the literal is `.strip()`-ed, so
there is no leading or trailing newline). -/
def ARGUMENTS_format (i : Interpreter) (variable_file pythonpath outputdir : Str) :
    Str :=
  List.intercalate ['\n'] (ARGUMENTS_lines i variable_file pythonpath outputdir)

/-- The tokens `_get_arguments` yields from the formatted template: every
line is split at its first space (`line.split(' ', 1)`). -/
def fixed_tokens (curdir : Str) (i : Interpreter) (outputdir : Str) : List Str :=
  (pySplitlines (ARGUMENTS_format i (osJoin curdir "interpreter.py".toList)
      (osJoin curdir "resources".toList) outputdir)).flatMap pySplit1

/-- The trailing tokens `_get_arguments` yields: `--exclude` followed by the
tag, once per entry of `interpreter.excludes`, in order. -/
def exclude_pairs (i : Interpreter) : List Str :=
  i.excludes.flatMap (fun exclude => ["--exclude".toList, exclude])

/-- The full token sequence produced by `_get_arguments(interpreter,
outputdir)`: the split template lines, then the exclusion pairs. -/
def get_arguments (curdir : Str) (i : Interpreter) (outputdir : Str) : List Str :=
  fixed_tokens curdir i outputdir ++ exclude_pairs i

/-- An observable event of `_run`: writing to stdout, installing the
`SIG_IGN` handler for `SIGINT`, or spawning the child process. -/
inductive Event where
  | stdout (s : Str)
  | sigintIgnored
  | spawn (command : List Str)
deriving DecidableEq

/-- The way `atests` can fail before a child process is launched: an
exception that nothing catches (`RuntimeError` from the `jar` fallback), or
`sys.exit(err)` on the `ValueError` raised by `InterpreterFactory`. -/
inductive Failure where
  | runtimeError (msg : Str)
  | sysExit (msg : Str)
deriving DecidableEq

/-- The environment the script runs in: platform flag (`os.name == 'nt'`),
the Windows `GetLongPathNameW` lookup, the filesystem (`os.path.exists`),
`os.environ`, `subprocess.call` (returning the child's exit status),
`InterpreterFactory` (raising `ValueError` on a bad token), whether
`from tasks import jar` succeeded, the path the real `jar()` build returns,
`sys.executable`, `os.path.normpath`, `tempfile.gettempdir()` and the
module-level `CURDIR`. -/
structure World where
  isWindows : Bool
  getLongPathName : Str → Str
  fs : Str → Bool
  environ : Str → Option Str
  call : List Str → (Str → Option Str) → Int
  factory : Str → Except Str Interpreter
  tasksImportOk : Bool
  jarPath : Str
  sysExecutable : Str
  normpath : Str → Str
  tempRoot : Str
  curdir : Str

/-- The `dos_to_long(path)` helper: unless the platform is Windows and the
path contains `'~'` and the path exists, the path is returned unchanged;
otherwise the long form comes from the `GetLongPathNameW` lookup. -/
def dos_to_long (isWindows : Bool) (lookup : Str → Str) (fs : Str → Bool)
    (path : Str) : Str :=
  if isWindows && path.contains '~' && fs path then lookup path else path

/-- Whether `q` is the path `p` itself or lies inside the directory `p`. -/
def isSubpath (p q : Str) : Bool :=
  p == q || (p ++ ['/']).isPrefixOf q

/-- The effect of `shutil.rmtree(p)` on the filesystem: `p` and everything
under it stops existing. -/
def rmtree (p : Str) (fs : Str → Bool) : Str → Bool :=
  fun q => if isSubpath p q then false else fs q

/-- The effect of `os.makedirs(p)` on the filesystem: `p` and all its
ancestor directories exist afterwards. -/
def makedirs (p : Str) (fs : Str → Bool) : Str → Bool :=
  fun q => fs q || q == p || (q ++ ['/']).isPrefixOf p

/-- The `_get_directories(interpreter)` function: lower-case the
interpreter's name and replace spaces by underscores, build the output
directory under `CURDIR/results` and the temporary directory under
`gettempdir()/robottests` (both through `dos_to_long`), delete either if it
exists, create the temporary directory, and return both paths together with
the final filesystem. -/
def get_directories (w : World) (i : Interpreter) :
    Str × Str × (Str → Bool) :=
  let name := (i.name.map Char.toLower).map (fun c => if c = ' ' then '_' else c)
  let outputdir := dos_to_long w.isWindows w.getLongPathName w.fs
      (osJoin (osJoin w.curdir "results".toList) name)
  let tempdir := dos_to_long w.isWindows w.getLongPathName w.fs
      (osJoin (osJoin w.tempRoot "robottests".toList) name)
  let fs1 := if w.fs outputdir then rmtree outputdir w.fs else w.fs
  let fs2 := if fs1 tempdir then rmtree tempdir fs1 else fs1
  (outputdir, tempdir, makedirs tempdir fs2)

/-- The runner path computed by `_run`:
`normpath(join(CURDIR, '..', 'src', 'robot', 'run.py'))`. -/
def runner_path (w : World) : Str :=
  w.normpath (osJoin (osJoin (osJoin (osJoin w.curdir "..".toList)
      "src".toList) "robot".toList) "run.py".toList)

/-- The child command line built by `_run`:
`[sys.executable, runner] + args`. -/
def build_command (w : World) (args : List Str) : List Str :=
  w.sysExecutable :: runner_path w :: args

/-- The child environment built by `_run`:
`dict(os.environ, TEMPDIR=tempdir)` — the inherited environment with the
single key `TEMPDIR` set to the prepared temporary directory. -/
def child_environ (w : World) (tempdir : Str) : Str → Option Str :=
  fun k => if k = "TEMPDIR".toList then some tempdir else w.environ k

/-- The `_run(args, tempdir)` function: build the command and environment,
print the command (the `print` statement appends a final newline to the
formatted text), ignore `SIGINT`, spawn the child with `subprocess.call`
and return its exit status.  The result pairs the ordered event trace with
the returned status. -/
def run (w : World) (args : List Str) (tempdir : Str) : List Event × Int :=
  let command := build_command w args
  let environ := child_environ w tempdir
  ([Event.stdout ("Running command:\n".toList
      ++ List.intercalate [' '] command ++ "\n\n".toList),
    Event.sigintIgnored,
    Event.spawn command],
   w.call command environ)

/-- The `jar()` entry used for the `standalone` token: the real build when
`from tasks import jar` succeeded, otherwise the fallback that raises
`RuntimeError("Creating jar distribution requires 'invoke'.")`. -/
def jar (w : World) : Except Failure Str :=
  if w.tasksImportOk then .ok w.jarPath
  else .error (.runtimeError "Creating jar distribution requires \x27invoke\x27.".toList)

/-- The `atests(interpreter, *arguments)` function: replace the
`standalone` token by the freshly built jar, resolve the token through
`InterpreterFactory` (exiting with the `ValueError` message on failure),
prepare the directories, assemble the arguments followed by the caller's
extra arguments, and launch the child. -/
def atests (w : World) (interpreter : Str) (arguments : List Str) :
    Except Failure (List Event × Int) :=
  match (if interpreter = "standalone".toList then jar w else .ok interpreter) with
  | .error e => .error e
  | .ok token =>
    match w.factory token with
    | .error err => .error (.sysExit err)
    | .ok interpreter =>
      let dirs := get_directories w interpreter
      let arguments := get_arguments w.curdir interpreter dirs.1 ++ arguments
      .ok (run w arguments dirs.2.1)

/-- How a process run of the script can end: a plain exit code, `sys.exit`
with an error message, or an exception escaping to the Python interpreter. -/
inductive ExitStatus where
  | code (rc : Int)
  | message (msg : Str)
  | uncaught (msg : Str)
deriving DecidableEq

/-- The `__main__` block: with `sys.argv` of length one or containing
`--help` the docstring is printed and the exit code is 251; otherwise
`atests(*sys.argv[1:])` runs and its result becomes the exit code.  The
boolean records whether the usage text was printed. -/
def main_model (w : World) (argv : List Str) : Bool × ExitStatus :=
  if argv.length = 1 ∨ "--help".toList ∈ argv then
    (true, .code 251)
  else
    match argv.tail with
    | [] => (false, .uncaught "TypeError".toList)
    | interpreter :: arguments =>
      match atests w interpreter arguments with
      | .error (.sysExit msg) => (false, .message msg)
      | .error (.runtimeError msg) => (false, .uncaught msg)
      | .ok (_, rc) => (false, .code rc)

/-- Splitting on a character that does not occur leaves the string whole. -/
theorem splitOn_single {c : Char} {s : Str} (h : c ∉ s) : s.splitOn c = [s] := by
  unfold List.splitOn
  refine List.splitOnP_eq_single _ _ ?_
  intro x hx hbeq
  exact absurd (beq_iff_eq.mp hbeq ▸ hx) h

/-- Splitting `p ++ c :: s` on `c` when `c` does not occur in `p` peels off
`p` as the first piece. -/
theorem splitOn_sep {c : Char} {p s : Str} (h : c ∉ p) :
    (p ++ c :: s).splitOn c = p :: s.splitOn c := by
  unfold List.splitOn
  refine List.splitOnP_first _ p ?_ c (by simp) s
  intro x hx hbeq
  exact absurd (beq_iff_eq.mp hbeq ▸ hx) h

/-- A string without a space is a single `split(' ', 1)` token. -/
theorem pySplit1_of_no_space {s : Str} (h : ' ' ∉ s) : pySplit1 s = [s] := by
  simp [pySplit1, splitOn_single h]

/-- With a space-free head `p`, `split(' ', 1)` cuts exactly at the first
space: the tail `s` stays one token even when it contains further spaces. -/
theorem pySplit1_first_space {p s : Str} (h : ' ' ∉ p) :
    pySplit1 (p ++ ' ' :: s) = [p, s] := by
  have h1 : (p ++ ' ' :: s).splitOn ' ' = p :: s.splitOn ' ' := splitOn_sep h
  have h2 : List.intercalate [' '] (s.splitOn ' ') = s :=
    List.intercalate_splitOn s ' '
  cases hs : s.splitOn ' ' with
  | nil =>
    refine absurd hs ?_
    unfold List.splitOn
    exact List.splitOnP_ne_nil _ s
  | cons y rest =>
    rw [hs] at h1 h2
    simp [pySplit1, h1, h2]

/-- On a string without carriage returns the boundary normalisation is the
identity. -/
theorem normCR_of_no_cr : ∀ s : Str, '\r' ∉ s → normCR false s = s := by
  intro s
  induction s with
  | nil => intro _; rfl
  | cons c rest ih =>
    intro h
    have hc : c ≠ '\r' := fun e => h (by simp [e])
    have hrest := ih (fun hm => h (List.mem_cons_of_mem _ hm))
    simp only [normCR]
    rw [if_neg hc]
    by_cases hn : c = '\n'
    · subst hn
      simp [hrest]
    · rw [if_neg hn, hrest]

/-- A character other than the separator occurs in an intercalation only if
it occurs in one of the pieces. -/
theorem not_mem_intercalate {c : Char} (hc : c ≠ '\n') :
    ∀ ls : List Str, (∀ l ∈ ls, c ∉ l) → c ∉ List.intercalate ['\n'] ls := by
  intro ls
  induction ls with
  | nil =>
    intro _
    simp [List.intercalate]
  | cons l ls ih =>
    intro h
    cases ls with
    | nil =>
      have hl := h l (by simp)
      simpa [List.intercalate] using hl
    | cons l2 ls2 =>
      have hstep : List.intercalate ['\n'] (l :: l2 :: ls2)
          = l ++ '\n' :: List.intercalate ['\n'] (l2 :: ls2) := by
        simp [List.intercalate]
      rw [hstep]
      intro hm
      rcases List.mem_append.mp hm with hm | hm
      · exact h l (by simp) hm
      · rcases List.mem_cons.mp hm with hm | hm
        · exact hc hm
        · exact ih (fun x hx => h x (List.mem_cons_of_mem _ hx)) hm

/-- Joining lines free of `'\n'` and `'\r'` with `'\n'` and applying
`splitlines` recovers the lines, provided the final line is nonempty. -/
theorem pySplitlines_intercalate {ls : List Str} (h : ∀ l ∈ ls, '\n' ∉ l)
    (hr : ∀ l ∈ ls, '\r' ∉ l)
    (hne : ls ≠ []) (hlast : ls.getLast? ≠ some []) :
    pySplitlines (List.intercalate ['\n'] ls) = ls := by
  have hnr : '\r' ∉ List.intercalate ['\n'] ls :=
    not_mem_intercalate (by decide) ls hr
  have hs : (List.intercalate ['\n'] ls).splitOn '\n' = ls :=
    List.splitOn_intercalate ls '\n' h hne
  simp [pySplitlines, normCR_of_no_cr _ hnr, hs, hlast]

/-- A character distinct from the separator occurs in `osJoin a b` only if
it occurs in `a` or in `b`. -/
theorem not_mem_osJoin {c : Char} {a b : Str} (hc : c ≠ '/')
    (ha : c ∉ a) (hb : c ∉ b) : c ∉ osJoin a b := by
  unfold osJoin
  split_ifs <;> simp_all

/-- Joining onto a nonempty last component keeps its last character. -/
theorem getLast?_osJoin {a b : Str} (hb : b ≠ []) :
    (osJoin a b).getLast? = b.getLast? := by
  obtain ⟨y, hy⟩ : ∃ y, b.getLast? = some y := by
    cases hb' : b.getLast? with
    | none => exact absurd (List.getLast?_eq_none_iff.mp hb') hb
    | some y => exact ⟨y, rfl⟩
  cases b with
  | nil => exact absurd rfl hb
  | cons z zs =>
    unfold osJoin
    split_ifs <;> simp [List.getLast?_append, hy]

/-- Joining onto a nonempty component yields a nonempty path. -/
theorem osJoin_ne_nil {a b : Str} (hb : b ≠ []) : osJoin a b ≠ [] := by
  unfold osJoin
  split_ifs <;> simp_all

/-- Evaluation of the fixed template tokens for inputs without newline or
carriage-return characters: each of the nine template lines contributes its
`split(' ', 1)` pieces. -/
theorem fixed_tokens_eval (curdir : Str) (i : Interpreter) (outputdir : Str)
    (h1 : '\n' ∉ i.name) (h2 : '\n' ∉ i.version) (h3 : '\n' ∉ i.os)
    (h4 : '\n' ∉ i.path) (h5 : '\n' ∉ curdir) (h6 : '\n' ∉ outputdir)
    (g1 : '\r' ∉ i.name) (g2 : '\r' ∉ i.version) (g3 : '\r' ∉ i.os)
    (g4 : '\r' ∉ i.path) (g5 : '\r' ∉ curdir) (g6 : '\r' ∉ outputdir) :
    fixed_tokens curdir i outputdir =
      [ "--doc".toList, "Robot Framework acceptance tests".toList,
        "--metadata".toList,
        "interpreter:".toList ++ i.name ++ [' '] ++ i.version ++ " on ".toList ++ i.os,
        "--variablefile".toList,
        osJoin curdir "interpreter.py".toList ++ [';'] ++ i.path ++ [';']
          ++ i.name ++ [';'] ++ i.version,
        "--pythonpath".toList, osJoin curdir "resources".toList,
        "--outputdir".toList, outputdir,
        "--splitlog".toList,
        "--console".toList, "dotted".toList,
        "--SuiteStatLevel".toList, "3".toList,
        "--TagStatExclude".toList, "no-*".toList ] := by
  have hvf : '\n' ∉ osJoin curdir "interpreter.py".toList :=
    not_mem_osJoin (by decide) h5 (by decide)
  have hpp : '\n' ∉ osJoin curdir "resources".toList :=
    not_mem_osJoin (by decide) h5 (by decide)
  have gvf : '\r' ∉ osJoin curdir "interpreter.py".toList :=
    not_mem_osJoin (by decide) g5 (by decide)
  have gpp : '\r' ∉ osJoin curdir "resources".toList :=
    not_mem_osJoin (by decide) g5 (by decide)
  have hlines : ∀ l ∈ ARGUMENTS_lines i (osJoin curdir "interpreter.py".toList)
      (osJoin curdir "resources".toList) outputdir, '\n' ∉ l := by
    intro l hl
    simp only [ARGUMENTS_lines, List.mem_cons, List.not_mem_nil, or_false] at hl
    rcases hl with h | h | h | h | h | h | h | h | h <;> subst h <;>
      simp +decide [List.mem_append, List.mem_cons, h1, h2, h3, h4, h6]
    · exact hvf
    · exact hpp
  have hlinesR : ∀ l ∈ ARGUMENTS_lines i (osJoin curdir "interpreter.py".toList)
      (osJoin curdir "resources".toList) outputdir, '\r' ∉ l := by
    intro l hl
    simp only [ARGUMENTS_lines, List.mem_cons, List.not_mem_nil, or_false] at hl
    rcases hl with h | h | h | h | h | h | h | h | h <;> subst h <;>
      simp +decide [List.mem_append, List.mem_cons, g1, g2, g3, g4, g6]
    · exact gvf
    · exact gpp
  have hne9 : ARGUMENTS_lines i (osJoin curdir "interpreter.py".toList)
      (osJoin curdir "resources".toList) outputdir ≠ [] := by
    simp [ARGUMENTS_lines]
  have hlast9 : (ARGUMENTS_lines i (osJoin curdir "interpreter.py".toList)
      (osJoin curdir "resources".toList) outputdir).getLast? ≠ some [] := by
    simp +decide [ARGUMENTS_lines]
  unfold fixed_tokens ARGUMENTS_format
  rw [pySplitlines_intercalate hlines hlinesR hne9 hlast9]
  have e1 : pySplit1 "--doc Robot Framework acceptance tests".toList
      = ["--doc".toList, "Robot Framework acceptance tests".toList] := by decide
  have e2 : pySplit1 ("--metadata interpreter:".toList ++ i.name ++ [' ']
        ++ i.version ++ " on ".toList ++ i.os)
      = ["--metadata".toList, "interpreter:".toList ++ i.name ++ [' ']
        ++ i.version ++ " on ".toList ++ i.os] := by
    rw [show "--metadata interpreter:".toList
        = "--metadata".toList ++ ' ' :: "interpreter:".toList by decide]
    simp only [List.append_assoc, List.cons_append]
    refine pySplit1_first_space ?_
    decide
  have e3 : pySplit1 ("--variablefile ".toList
        ++ osJoin curdir "interpreter.py".toList ++ [';'] ++ i.path ++ [';']
        ++ i.name ++ [';'] ++ i.version)
      = ["--variablefile".toList, osJoin curdir "interpreter.py".toList
        ++ [';'] ++ i.path ++ [';'] ++ i.name ++ [';'] ++ i.version] := by
    rw [show "--variablefile ".toList = "--variablefile".toList ++ [' '] by decide]
    simp only [List.append_assoc, List.cons_append, List.singleton_append]
    refine pySplit1_first_space ?_
    decide
  have e4 : pySplit1 ("--pythonpath ".toList ++ osJoin curdir "resources".toList)
      = ["--pythonpath".toList, osJoin curdir "resources".toList] := by
    rw [show "--pythonpath ".toList = "--pythonpath".toList ++ [' '] by decide]
    simp only [List.append_assoc, List.cons_append, List.singleton_append]
    refine pySplit1_first_space ?_
    decide
  have e5 : pySplit1 ("--outputdir ".toList ++ outputdir)
      = ["--outputdir".toList, outputdir] := by
    rw [show "--outputdir ".toList = "--outputdir".toList ++ [' '] by decide]
    simp only [List.append_assoc, List.cons_append, List.singleton_append]
    refine pySplit1_first_space ?_
    decide
  have e6 : pySplit1 "--splitlog".toList = ["--splitlog".toList] := by decide
  have e7 : pySplit1 "--console dotted".toList
      = ["--console".toList, "dotted".toList] := by decide
  have e8 : pySplit1 "--SuiteStatLevel 3".toList
      = ["--SuiteStatLevel".toList, "3".toList] := by decide
  have e9 : pySplit1 "--TagStatExclude no-*".toList
      = ["--TagStatExclude".toList, "no-*".toList] := by decide
  simp only [ARGUMENTS_lines, List.flatMap_cons, List.flatMap_nil]
  rw [e1, e2, e3, e4, e5, e6, e7, e8, e9]
  rfl

/-- A cons is never equal to an append whose head character differs. -/
theorem ne_cons_append {a b : Char} {l m r : Str} (h : a ≠ b) :
    a :: l ≠ (b :: m) ++ r := by
  intro e
  rw [List.cons_append] at e
  injection e with e1 _
  exact h e1

/-- None of the fixed template tokens is the literal `--exclude` when the
inputs are free of line boundaries and the output directory is not itself
`--exclude`. -/
theorem exclude_not_mem_fixed_tokens (curdir : Str) (i : Interpreter)
    (outputdir : Str)
    (h1 : '\n' ∉ i.name) (h2 : '\n' ∉ i.version) (h3 : '\n' ∉ i.os)
    (h4 : '\n' ∉ i.path) (h5 : '\n' ∉ curdir) (h6 : '\n' ∉ outputdir)
    (g1 : '\r' ∉ i.name) (g2 : '\r' ∉ i.version) (g3 : '\r' ∉ i.os)
    (g4 : '\r' ∉ i.path) (g5 : '\r' ∉ curdir) (g6 : '\r' ∉ outputdir)
    (h7 : outputdir ≠ "--exclude".toList) :
    "--exclude".toList ∉ fixed_tokens curdir i outputdir := by
  rw [fixed_tokens_eval curdir i outputdir h1 h2 h3 h4 h5 h6 g1 g2 g3 g4 g5 g6]
  intro hmem
  simp only [List.mem_cons, List.not_mem_nil, or_false] at hmem
  rcases hmem with h | h | h | h | h | h | h | h | h | h | h | h | h | h | h | h | h <;>
    try exact absurd h (by decide)
  · simp only [List.append_assoc, List.cons_append] at h
    rw [show "--exclude".toList = '-' :: "-exclude".toList by decide,
      show "interpreter:".toList = 'i' :: "nterpreter:".toList by decide] at h
    exact absurd h (ne_cons_append (by decide))
  · have hsemi : (';' : Char) ∈ osJoin curdir "interpreter.py".toList ++ [';']
        ++ i.path ++ [';'] ++ i.name ++ [';'] ++ i.version := by simp
    rw [← h] at hsemi
    exact absurd hsemi (by decide)
  · have hl := congrArg List.getLast? h
    rw [getLast?_osJoin (by decide)] at hl
    exact absurd hl (by decide)
  · exact h7 h.symm

/-- Counting `--exclude` in the per-tag pairs gives one occurrence per tag,
as long as no tag is itself the literal `--exclude`. -/
theorem count_exclude_flatMap (ts : List Str) (h : "--exclude".toList ∉ ts) :
    List.count "--exclude".toList
      (ts.flatMap (fun exclude => ["--exclude".toList, exclude])) = ts.length := by
  induction ts with
  | nil => rfl
  | cons t ts ih =>
    have ht : ¬(t = "--exclude".toList) := fun e => h (by simp [e])
    have hts : "--exclude".toList ∉ ts := fun hm => h (List.mem_cons_of_mem _ hm)
    simp only [List.flatMap_cons, List.cons_append, List.nil_append]
    rw [List.count_cons, List.count_cons, ih hts]
    simp +decide
    exact ht

/-- C1: for every descriptor with `N` exclusion tags (with fields free of
the `'\n'` and `'\r'` line boundaries, an output directory that is not the
literal `--exclude`, and no tag equal to the flag itself), the sequence
produced by `_get_arguments` is the fixed template tokens followed by one
`(--exclude, tag)` pair per entry of `excludes` in their original order, and
it contains exactly `N` occurrences of the `--exclude` token, none of which
lies among the fixed tokens. -/
theorem get_arguments_exclude_contract (curdir outputdir : Str) (i : Interpreter)
    (h1 : '\n' ∉ i.name) (h2 : '\n' ∉ i.version) (h3 : '\n' ∉ i.os)
    (h4 : '\n' ∉ i.path) (h5 : '\n' ∉ curdir) (h6 : '\n' ∉ outputdir)
    (g1 : '\r' ∉ i.name) (g2 : '\r' ∉ i.version) (g3 : '\r' ∉ i.os)
    (g4 : '\r' ∉ i.path) (g5 : '\r' ∉ curdir) (g6 : '\r' ∉ outputdir)
    (h7 : outputdir ≠ "--exclude".toList) (h8 : "--exclude".toList ∉ i.excludes) :
    get_arguments curdir i outputdir
        = fixed_tokens curdir i outputdir
          ++ i.excludes.flatMap (fun exclude => ["--exclude".toList, exclude])
      ∧ List.count "--exclude".toList (fixed_tokens curdir i outputdir) = 0
      ∧ List.count "--exclude".toList (get_arguments curdir i outputdir)
          = i.excludes.length := by
  have hfix : List.count "--exclude".toList (fixed_tokens curdir i outputdir) = 0 :=
    List.count_eq_zero.mpr
      (exclude_not_mem_fixed_tokens curdir i outputdir h1 h2 h3 h4 h5 h6
        g1 g2 g3 g4 g5 g6 h7)
  refine ⟨rfl, hfix, ?_⟩
  unfold get_arguments exclude_pairs
  rw [List.count_append, hfix, count_exclude_flatMap i.excludes h8]
  omega

/-- A concrete interpreter descriptor used by the witnesses. -/
def I0 : Interpreter :=
  { name := "IronPython".toList, version := "2.7.9".toList,
    os := "windows".toList, path := "/opt/ipy/ipy.exe".toList,
    excludes := ["no-windows".toList, "require-lxml".toList] }

/-- Witness for C1: the contract instantiated at a concrete descriptor with
two exclusion tags. -/
theorem get_arguments_exclude_contract_witness :
    ('\n' ∉ I0.name ∧ '\n' ∉ I0.version ∧ '\n' ∉ I0.os ∧ '\n' ∉ I0.path
      ∧ '\n' ∉ "/repo/atest".toList ∧ '\n' ∉ "/repo/atest/results/ironpython".toList
      ∧ '\r' ∉ I0.name ∧ '\r' ∉ I0.version ∧ '\r' ∉ I0.os ∧ '\r' ∉ I0.path
      ∧ '\r' ∉ "/repo/atest".toList ∧ '\r' ∉ "/repo/atest/results/ironpython".toList
      ∧ "/repo/atest/results/ironpython".toList ≠ "--exclude".toList
      ∧ "--exclude".toList ∉ I0.excludes)
    ∧ (get_arguments "/repo/atest".toList I0 "/repo/atest/results/ironpython".toList
        = fixed_tokens "/repo/atest".toList I0 "/repo/atest/results/ironpython".toList
          ++ I0.excludes.flatMap (fun exclude => ["--exclude".toList, exclude])
      ∧ List.count "--exclude".toList
          (fixed_tokens "/repo/atest".toList I0 "/repo/atest/results/ironpython".toList) = 0
      ∧ List.count "--exclude".toList
          (get_arguments "/repo/atest".toList I0 "/repo/atest/results/ironpython".toList)
          = I0.excludes.length) :=
  ⟨by decide,
   get_arguments_exclude_contract "/repo/atest".toList "/repo/atest/results/ironpython".toList I0
     (by decide) (by decide) (by decide) (by decide) (by decide) (by decide)
     (by decide) (by decide) (by decide) (by decide) (by decide) (by decide)
     (by decide) (by decide)⟩

/-- C2: every line of the argument template splits into at most two tokens;
a line without a space stays a single token; the split happens at the first
space, keeping the remainder (spaces included) as one value token; and for
fields free of the `'\n'` and `'\r'` line boundaries, a nonempty output
directory and nonempty tags, no token of the assembled sequence is the
empty string. -/
theorem get_arguments_token_shape (curdir outputdir : Str) (i : Interpreter)
    (h1 : '\n' ∉ i.name) (h2 : '\n' ∉ i.version) (h3 : '\n' ∉ i.os)
    (h4 : '\n' ∉ i.path) (h5 : '\n' ∉ curdir) (h6 : '\n' ∉ outputdir)
    (g1 : '\r' ∉ i.name) (g2 : '\r' ∉ i.version) (g3 : '\r' ∉ i.os)
    (g4 : '\r' ∉ i.path) (g5 : '\r' ∉ curdir) (g6 : '\r' ∉ outputdir)
    (h7 : outputdir ≠ []) (h8 : [] ∉ i.excludes) :
    (∀ line : Str, (pySplit1 line).length ≤ 2)
    ∧ (∀ line : Str, ' ' ∉ line → pySplit1 line = [line])
    ∧ (∀ flag rest : Str, ' ' ∉ flag → pySplit1 (flag ++ ' ' :: rest) = [flag, rest])
    ∧ [] ∉ get_arguments curdir i outputdir := by
  refine ⟨?_, fun line h => pySplit1_of_no_space h,
    fun flag rest h => pySplit1_first_space h, ?_⟩
  · intro line
    unfold pySplit1
    cases hl : line.splitOn ' ' with
    | nil => simp
    | cons x xs =>
      cases xs with
      | nil => simp
      | cons y rest => simp
  · intro hmem
    unfold get_arguments at hmem
    rcases List.mem_append.mp hmem with hmem | hmem
    · rw [fixed_tokens_eval curdir i outputdir h1 h2 h3 h4 h5 h6
        g1 g2 g3 g4 g5 g6] at hmem
      simp only [List.mem_cons, List.not_mem_nil, or_false] at hmem
      rcases hmem with h | h | h | h | h | h | h | h | h | h | h | h | h | h | h | h | h <;>
        try exact absurd h (by decide)
      · exact absurd h.symm (by simp +decide [List.append_eq_nil])
      · exact absurd h.symm (by simp +decide [List.append_eq_nil])
      · exact absurd h.symm (osJoin_ne_nil (by decide))
      · exact h7 h.symm
    · unfold exclude_pairs at hmem
      simp only [List.mem_flatMap, List.mem_cons, List.not_mem_nil, or_false] at hmem
      obtain ⟨t, ht, h⟩ := hmem
      rcases h with h | h
      · exact absurd h (by decide)
      · exact h8 (h ▸ ht)

/-- Witness for C2 at a concrete descriptor and directories. -/
theorem get_arguments_token_shape_witness :
    ('\n' ∉ I0.name ∧ '\n' ∉ I0.version ∧ '\n' ∉ I0.os ∧ '\n' ∉ I0.path
      ∧ '\n' ∉ "/repo/atest".toList ∧ '\n' ∉ "/repo/atest/results/ironpython".toList
      ∧ '\r' ∉ I0.name ∧ '\r' ∉ I0.version ∧ '\r' ∉ I0.os ∧ '\r' ∉ I0.path
      ∧ '\r' ∉ "/repo/atest".toList ∧ '\r' ∉ "/repo/atest/results/ironpython".toList
      ∧ "/repo/atest/results/ironpython".toList ≠ ([] : Str)
      ∧ ([] : Str) ∉ I0.excludes)
    ∧ ((∀ line : Str, (pySplit1 line).length ≤ 2)
      ∧ (∀ line : Str, ' ' ∉ line → pySplit1 line = [line])
      ∧ (∀ flag rest : Str, ' ' ∉ flag → pySplit1 (flag ++ ' ' :: rest) = [flag, rest])
      ∧ [] ∉ get_arguments "/repo/atest".toList I0 "/repo/atest/results/ironpython".toList) :=
  ⟨by decide,
   get_arguments_token_shape "/repo/atest".toList "/repo/atest/results/ironpython".toList I0
     (by decide) (by decide) (by decide) (by decide) (by decide) (by decide)
     (by decide) (by decide) (by decide) (by decide) (by decide) (by decide)
     (by decide) (by decide)⟩

/-- A concrete world used by the witnesses: a POSIX platform, an empty
filesystem and environment, a `subprocess.call` stub exiting 3, a factory
resolving only the token `python` to `I0`, and no importable `tasks`
module. -/
def W0 : World :=
  { isWindows := false, getLongPathName := fun p => p,
    fs := fun _ => false, environ := fun _ => none,
    call := fun _ _ => 3,
    factory := fun t => if t = "python".toList then .ok I0
      else .error "Invalid interpreter or path.".toList,
    tasksImportOk := false,
    jarPath := "/repo/dist/robotframework-2.9dev234.jar".toList,
    sysExecutable := "/usr/bin/python".toList, normpath := fun p => p,
    tempRoot := "/tmp".toList, curdir := "/repo/atest".toList }

/-- C9: `dos_to_long` returns every path that has no `~` alias marker, or
that does not exist on disk, unchanged — on every platform. -/
theorem dos_to_long_noop (isWindows : Bool) (lookup : Str → Str)
    (fs : Str → Bool) (p : Str)
    (h : p.contains '~' = false ∨ fs p = false) :
    dos_to_long isWindows lookup fs p = p := by
  unfold dos_to_long
  rcases h with h | h
  · simp at h
    simp [h]
  · simp [h]

/-- Witness for C9: a Windows path in DOS alias form that does not exist is
returned unchanged even though a lookup is available. -/
theorem dos_to_long_noop_witness :
    ("/docs~1/x".toList.contains '~' = false
      ∨ (fun _ : Str => false) "/docs~1/x".toList = false)
    ∧ dos_to_long true (fun _ => "/documents/x".toList) (fun _ => false)
        "/docs~1/x".toList = "/docs~1/x".toList :=
  ⟨Or.inr rfl,
   dos_to_long_noop true (fun _ => "/documents/x".toList) (fun _ => false)
     "/docs~1/x".toList (Or.inr rfl)⟩

/-- C8: the child environment passed by `_run` to `subprocess.call` is the
inherited environment with exactly one modification — `TEMPDIR` set to the
prepared temporary directory — while every other variable passes through. -/
theorem child_environ_spec (w : World) (tempdir : Str) :
    child_environ w tempdir "TEMPDIR".toList = some tempdir
    ∧ (∀ k : Str, k ≠ "TEMPDIR".toList → child_environ w tempdir k = w.environ k)
    ∧ (∀ args : List Str, (run w args tempdir).2
        = w.call (build_command w args) (child_environ w tempdir)) := by
  refine ⟨rfl, fun k hk => ?_, fun args => rfl⟩
  unfold child_environ
  rw [if_neg hk]

/-- Witness for C8: `TEMPDIR` is overridden and an unrelated variable such
as `PATH` passes through unchanged. -/
theorem child_environ_spec_witness :
    child_environ W0 "/tmp/robottests/ironpython".toList "TEMPDIR".toList
        = some "/tmp/robottests/ironpython".toList
    ∧ "PATH".toList ≠ "TEMPDIR".toList
    ∧ child_environ W0 "/tmp/robottests/ironpython".toList "PATH".toList
        = W0.environ "PATH".toList :=
  ⟨(child_environ_spec W0 "/tmp/robottests/ironpython".toList).1,
   by decide,
   (child_environ_spec W0 "/tmp/robottests/ironpython".toList).2.1
     "PATH".toList (by decide)⟩

/-- C5: `_run` returns the exit status produced by `subprocess.call`
verbatim; in particular a child stub exiting with code 3 makes the result
equal 3. -/
theorem run_returns_exit_status (w : World) (args : List Str) (tempdir : Str)
    (h3 : ∀ c e, w.call c e = 3) :
    (run w args tempdir).2 = w.call (build_command w args) (child_environ w tempdir)
    ∧ (run w args tempdir).2 = 3 :=
  ⟨rfl, h3 (build_command w args) (child_environ w tempdir)⟩

/-- Witness for C5: with the `W0` stub whose `subprocess.call` always exits
3, `_run` returns 3. -/
theorem run_returns_exit_status_witness :
    (∀ c e, W0.call c e = 3)
    ∧ ((run W0 ["--test".toList] "/tmp/robottests/t".toList).2
        = W0.call (build_command W0 ["--test".toList])
            (child_environ W0 "/tmp/robottests/t".toList)
      ∧ (run W0 ["--test".toList] "/tmp/robottests/t".toList).2 = 3) :=
  ⟨fun _ _ => rfl,
   run_returns_exit_status W0 ["--test".toList] "/tmp/robottests/t".toList
     (fun _ _ => rfl)⟩

/-- C10: in the event trace of `_run`, every spawn of the child process is
strictly preceded by installing the ignore handler for `SIGINT`, and no
event after position 1 touches the handler again, so the parent never
handles an interrupt from the spawn onward. -/
theorem run_sigint_before_spawn (w : World) (args : List Str) (tempdir : Str) :
    (∀ j cmd, (run w args tempdir).1.get? j = some (Event.spawn cmd) →
      ∃ i, i < j ∧ (run w args tempdir).1.get? i = some Event.sigintIgnored)
    ∧ (∀ j, 1 < j → (run w args tempdir).1.get? j ≠ some Event.sigintIgnored) := by
  constructor
  · intro j cmd h
    rcases j with _ | _ | _ | n
    · simp [run] at h
    · simp [run] at h
    · exact ⟨1, by omega, rfl⟩
    · simp [run] at h
  · intro j hj h
    rcases j with _ | _ | _ | n
    · omega
    · omega
    · simp [run] at h
    · simp [run] at h

/-- Witness for C10: in a concrete run the spawn sits at position 2 and the
`SIGINT`-ignore event strictly before it. -/
theorem run_sigint_before_spawn_witness :
    (run W0 ["--suite".toList] "/tmp/robottests/t".toList).1.get? 2
        = some (Event.spawn (build_command W0 ["--suite".toList]))
    ∧ (∃ i, i < 2 ∧ (run W0 ["--suite".toList] "/tmp/robottests/t".toList).1.get? i
        = some Event.sigintIgnored) :=
  ⟨rfl,
   (run_sigint_before_spawn W0 ["--suite".toList] "/tmp/robottests/t".toList).1
     2 (build_command W0 ["--suite".toList]) rfl⟩

/-- C6: with no command-line argument beyond the program name, or with
`--help` anywhere among the arguments, the script prints the usage text and
exits with the sentinel code 251. -/
theorem main_usage_help (w : World) (argv : List Str) (h0 : argv ≠ [])
    (h : argv.tail = [] ∨ "--help".toList ∈ argv.tail) :
    main_model w argv = (true, ExitStatus.code 251) := by
  have hcond : argv.length = 1 ∨ "--help".toList ∈ argv := by
    rcases h with h | h
    · left
      cases argv with
      | nil => exact absurd rfl h0
      | cons a t =>
        simp only [List.tail_cons] at h
        simp [h]
    · right
      cases argv with
      | nil => exact absurd rfl h0
      | cons a t =>
        simp only [List.tail_cons] at h
        exact List.mem_cons_of_mem _ h
  unfold main_model
  rw [if_pos hcond]

/-- Witness for C6: `--help` in the middle of other arguments still prints
usage and exits 251. -/
theorem main_usage_help_witness :
    (["run_atests.py".toList, "python".toList, "--help".toList,
        "atest/robot".toList] ≠ ([] : List Str)
      ∧ (["run_atests.py".toList, "python".toList, "--help".toList,
          "atest/robot".toList].tail = []
        ∨ "--help".toList ∈ ["run_atests.py".toList, "python".toList,
          "--help".toList, "atest/robot".toList].tail))
    ∧ main_model W0 ["run_atests.py".toList, "python".toList, "--help".toList,
        "atest/robot".toList] = (true, ExitStatus.code 251) :=
  ⟨⟨by decide, by decide⟩,
   main_usage_help W0 ["run_atests.py".toList, "python".toList, "--help".toList,
     "atest/robot".toList] (by decide) (by decide)⟩

/-- C3: on the successful path the argument list handed to `_run` is the
fixed template tokens, then the exclusion pairs, then the caller's extra
arguments; the final child command line prefixes the execution engine and
the runner entry point and keeps the extra arguments positionally last. -/
theorem atests_command_order (w : World) (tok : Str) (extra : List Str)
    (interp : Interpreter)
    (h1 : tok ≠ "standalone".toList) (h2 : w.factory tok = .ok interp) :
    atests w tok extra
        = .ok (run w (fixed_tokens w.curdir interp (get_directories w interp).1
            ++ exclude_pairs interp ++ extra) (get_directories w interp).2.1)
    ∧ build_command w (fixed_tokens w.curdir interp (get_directories w interp).1
          ++ exclude_pairs interp ++ extra)
        = [w.sysExecutable, runner_path w]
          ++ fixed_tokens w.curdir interp (get_directories w interp).1
          ++ exclude_pairs interp ++ extra := by
  constructor
  · unfold atests
    rw [if_neg h1]
    change (match w.factory tok with
      | Except.error err => Except.error (Failure.sysExit err)
      | Except.ok interpreter =>
        Except.ok (run w (get_arguments w.curdir interpreter
            (get_directories w interpreter).1 ++ extra)
          (get_directories w interpreter).2.1)) = _
    rw [h2]
    rfl
  · unfold build_command
    simp only [List.append_assoc, List.cons_append, List.nil_append]

/-- Witness for C3: the ordering contract at the concrete world `W0`, whose
factory resolves the token `python` to the descriptor `I0`. -/
theorem atests_command_order_witness :
    ("python".toList ≠ "standalone".toList
      ∧ W0.factory "python".toList = .ok I0)
    ∧ (atests W0 "python".toList ["--test".toList, "Example".toList]
        = .ok (run W0 (fixed_tokens W0.curdir I0 (get_directories W0 I0).1
            ++ exclude_pairs I0 ++ ["--test".toList, "Example".toList])
            (get_directories W0 I0).2.1)
      ∧ build_command W0 (fixed_tokens W0.curdir I0 (get_directories W0 I0).1
            ++ exclude_pairs I0 ++ ["--test".toList, "Example".toList])
          = [W0.sysExecutable, runner_path W0]
            ++ fixed_tokens W0.curdir I0 (get_directories W0 I0).1
            ++ exclude_pairs I0 ++ ["--test".toList, "Example".toList]) :=
  ⟨⟨by decide, rfl⟩,
   atests_command_order W0 "python".toList ["--test".toList, "Example".toList] I0
     (by decide) rfl⟩

/-- Whether an `atests` outcome is the `sys.exit`-with-message reporting
path used for interpreter-resolution failures. -/
def isSysExitFailure : Except Failure (List Event × Int) → Bool
  | .error (.sysExit _) => true
  | _ => false

/-- C7 counterexample: in a world without the build capability the
`standalone` token does not produce the `sys.exit` reporting path of an
interpreter-resolution failure; it produces an uncaught `RuntimeError`. -/
theorem standalone_without_invoke_counterexample :
    atests W0 "standalone".toList []
        = .error (.runtimeError
            "Creating jar distribution requires \x27invoke\x27.".toList)
    ∧ isSysExitFailure (atests W0 "standalone".toList []) = false := by
  constructor <;> rfl

/-- C7 amended: when `from tasks import jar` failed, the `standalone` token
makes `atests` raise `RuntimeError("Creating jar distribution requires
'invoke'.")`, which escapes `__main__` as an uncaught exception — a
reporting path different from an interpreter-resolution failure, which
calls `sys.exit` with the `ValueError` message. -/
theorem standalone_without_invoke (w : World) (prog : Str) (extra : List Str)
    (h : w.tasksImportOk = false)
    (h2 : prog ≠ "--help".toList) (h3 : "--help".toList ∉ extra) :
    atests w "standalone".toList extra
        = .error (.runtimeError
            "Creating jar distribution requires \x27invoke\x27.".toList)
    ∧ main_model w (prog :: "standalone".toList :: extra)
        = (false, ExitStatus.uncaught
            "Creating jar distribution requires \x27invoke\x27.".toList)
    ∧ (∀ badtok msg, badtok ≠ "standalone".toList →
        w.factory badtok = .error msg →
        atests w badtok extra = .error (.sysExit msg)) := by
  have hstand : atests w "standalone".toList extra
      = .error (.runtimeError
          "Creating jar distribution requires \x27invoke\x27.".toList) := by
    simp [atests, jar, h]
  refine ⟨hstand, ?_, ?_⟩
  · unfold main_model
    rw [if_neg]
    · simp only [List.tail_cons]
      rw [hstand]
    · intro hcond
      rcases hcond with hlen | hmem
      · simp at hlen
      · simp only [List.mem_cons] at hmem
        rcases hmem with he | he | he
        · exact h2 he.symm
        · exact absurd he (by decide)
        · exact h3 he
  · intro badtok msg hbad hfac
    unfold atests
    rw [if_neg hbad]
    change (match w.factory badtok with
      | Except.error err => Except.error (Failure.sysExit err)
      | Except.ok interpreter =>
        Except.ok (run w (get_arguments w.curdir interpreter
            (get_directories w interpreter).1 ++ extra)
          (get_directories w interpreter).2.1)) = _
    rw [hfac]

/-- Witness for the C7 amended theorem at the concrete world `W0`. -/
theorem standalone_without_invoke_witness :
    (W0.tasksImportOk = false
      ∧ "run_atests.py".toList ≠ "--help".toList
      ∧ "--help".toList ∉ ["atest/robot".toList])
    ∧ (atests W0 "standalone".toList ["atest/robot".toList]
        = .error (.runtimeError
            "Creating jar distribution requires \x27invoke\x27.".toList)
      ∧ main_model W0 ("run_atests.py".toList :: "standalone".toList
            :: ["atest/robot".toList])
          = (false, ExitStatus.uncaught
              "Creating jar distribution requires \x27invoke\x27.".toList)
      ∧ (∀ badtok msg, badtok ≠ "standalone".toList →
          W0.factory badtok = .error msg →
          atests W0 badtok ["atest/robot".toList] = .error (.sysExit msg))) :=
  ⟨⟨rfl, by decide, by decide⟩,
   standalone_without_invoke W0 "run_atests.py".toList ["atest/robot".toList]
     rfl (by decide) (by decide)⟩

/-- When the output directory is neither the temporary directory nor an
ancestor of it, the same holds for every path inside the output directory. -/
theorem subpath_transfer {od td q : Str} (h1 : od ≠ td)
    (h2 : (od ++ ['/']).isPrefixOf td = false) (hq : isSubpath od q = true) :
    q ≠ td ∧ (q ++ ['/']).isPrefixOf td = false := by
  have h2' : ¬(od ++ ['/'] <+: td) := by
    intro hp
    rw [← List.isPrefixOf_iff_prefix] at hp
    rw [h2] at hp
    exact Bool.noConfusion hp
  unfold isSubpath at hq
  rw [Bool.or_eq_true] at hq
  rcases hq with hq | hq
  · have hoq : od = q := beq_iff_eq.mp hq
    subst hoq
    exact ⟨h1, h2⟩
  · rw [List.isPrefixOf_iff_prefix] at hq
    constructor
    · rintro rfl
      exact h2' hq
    · cases hc : (q ++ ['/']).isPrefixOf td with
      | false => rfl
      | true =>
        rw [List.isPrefixOf_iff_prefix] at hc
        exact absurd ((hq.trans (List.prefix_append q ['/'])).trans hc) h2'

/-- A path strictly inside the temporary directory is neither that
directory itself nor an ancestor of it. -/
theorem strict_subpath_facts {td q : Str}
    (h : (td ++ ['/']).isPrefixOf q = true) :
    (q == td) = false ∧ (q ++ ['/']).isPrefixOf td = false := by
  rw [List.isPrefixOf_iff_prefix] at h
  have hlen : td.length + 1 ≤ q.length := by
    have hx := h.length_le
    simp at hx
    omega
  constructor
  · rw [beq_eq_false_iff_ne]
    intro e
    rw [e] at hlen
    omega
  · cases hc : (q ++ ['/']).isPrefixOf td with
    | false => rfl
    | true =>
      rw [List.isPrefixOf_iff_prefix] at hc
      have hy := hc.length_le
      simp at hy
      omega

/-- C4: `_get_directories` derives the safe name by lower-casing the
descriptor's name and replacing spaces with underscores, places the output
directory under the `results` root and the temporary directory under the
system temporary root (both through `dos_to_long`), and afterwards the
output directory does not exist while the temporary directory does; if
either directory pre-existed, it was recursively deleted first.  The two
hypotheses rule out the degenerate layout in which the output directory is
the temporary directory or an ancestor of it. -/
theorem get_directories_contract (w : World) (i : Interpreter) (od td : Str)
    (fs' : Str → Bool) (hrun : get_directories w i = (od, td, fs'))
    (h1 : od ≠ td) (h2 : (od ++ ['/']).isPrefixOf td = false) :
    od = dos_to_long w.isWindows w.getLongPathName w.fs
          (osJoin (osJoin w.curdir "results".toList)
            ((i.name.map Char.toLower).map (fun c => if c = ' ' then '_' else c)))
    ∧ td = dos_to_long w.isWindows w.getLongPathName w.fs
          (osJoin (osJoin w.tempRoot "robottests".toList)
            ((i.name.map Char.toLower).map (fun c => if c = ' ' then '_' else c)))
    ∧ fs' od = false
    ∧ fs' td = true
    ∧ (w.fs od = true → ∀ q, isSubpath od q = true → fs' q = false)
    ∧ (w.fs td = true → ∀ q, (td ++ ['/']).isPrefixOf q = true → fs' q = false) := by
  unfold get_directories at hrun
  simp only [Prod.mk.injEq] at hrun
  obtain ⟨hod, htd, hfs⟩ := hrun
  rw [hod, htd] at hfs
  set fs1 := if w.fs od then rmtree od w.fs else w.fs with hfs1
  set fs2 := if fs1 td then rmtree td fs1 else fs1 with hfs2
  have F1 : fs1 od = false := by
    rw [hfs1]
    cases hcase : w.fs od with
    | false => simp [hcase]
    | true => simp [hcase, rmtree, isSubpath]
  have F2 : fs2 od = false := by
    rw [hfs2]
    cases hcase : fs1 td with
    | false => simpa using F1
    | true =>
      by_cases hst : isSubpath td od = true
      · simp [rmtree, hst]
      · simp [rmtree, hst, F1]
  have F3 : fs' od = false := by
    rw [← hfs]
    simp [makedirs, F2, h2, beq_eq_false_iff_ne.mpr h1]
  have F4 : fs' td = true := by
    rw [← hfs]
    simp [makedirs]
  have F0 : isSubpath od td = false := by
    simp [isSubpath, h2, beq_eq_false_iff_ne.mpr h1]
  refine ⟨hod.symm, htd.symm, F3, F4, ?_, ?_⟩
  · intro hfsod q hq
    obtain ⟨hneq, hpref⟩ := subpath_transfer h1 h2 hq
    have hq1 : fs1 q = false := by
      rw [hfs1, if_pos hfsod]
      simp [rmtree, hq]
    have hq2 : fs2 q = false := by
      rw [hfs2]
      cases hcase : fs1 td with
      | false => simpa using hq1
      | true =>
        by_cases hst : isSubpath td q = true
        · simp [rmtree, hst]
        · simp [rmtree, hst, hq1]
    rw [← hfs]
    simp [makedirs, hq2, hpref, beq_eq_false_iff_ne.mpr hneq]
  · intro hfstd q hq
    obtain ⟨hbeq, hpref⟩ := strict_subpath_facts hq
    have G1 : fs1 td = true := by
      rw [hfs1]
      cases hcase : w.fs od with
      | false => simpa using hfstd
      | true => simp [rmtree, F0, hfstd]
    have G2 : fs2 q = false := by
      rw [hfs2, if_pos G1]
      have hsub : isSubpath td q = true := by
        simp [isSubpath, hq]
      simp [rmtree, hsub]
    rw [← hfs]
    simp [makedirs, G2, hpref, hbeq]

/-- Witness for C4 at the concrete world `W0` and descriptor `I0`. -/
theorem get_directories_contract_witness :
    (get_directories W0 I0
        = ("/repo/atest/results/ironpython".toList,
           "/tmp/robottests/ironpython".toList,
           (get_directories W0 I0).2.2)
      ∧ "/repo/atest/results/ironpython".toList
          ≠ "/tmp/robottests/ironpython".toList
      ∧ ("/repo/atest/results/ironpython".toList ++ ['/']).isPrefixOf
          "/tmp/robottests/ironpython".toList = false)
    ∧ ("/repo/atest/results/ironpython".toList
        = dos_to_long W0.isWindows W0.getLongPathName W0.fs
            (osJoin (osJoin W0.curdir "results".toList)
              ((I0.name.map Char.toLower).map (fun c => if c = ' ' then '_' else c)))
      ∧ "/tmp/robottests/ironpython".toList
        = dos_to_long W0.isWindows W0.getLongPathName W0.fs
            (osJoin (osJoin W0.tempRoot "robottests".toList)
              ((I0.name.map Char.toLower).map (fun c => if c = ' ' then '_' else c)))
      ∧ (get_directories W0 I0).2.2 "/repo/atest/results/ironpython".toList = false
      ∧ (get_directories W0 I0).2.2 "/tmp/robottests/ironpython".toList = true
      ∧ (W0.fs "/repo/atest/results/ironpython".toList = true →
          ∀ q, isSubpath "/repo/atest/results/ironpython".toList q = true →
            (get_directories W0 I0).2.2 q = false)
      ∧ (W0.fs "/tmp/robottests/ironpython".toList = true →
          ∀ q, ("/tmp/robottests/ironpython".toList ++ ['/']).isPrefixOf q = true →
            (get_directories W0 I0).2.2 q = false)) :=
  ⟨⟨rfl, by decide, by decide⟩,
   get_directories_contract W0 I0 "/repo/atest/results/ironpython".toList
     "/tmp/robottests/ironpython".toList ((get_directories W0 I0).2.2)
     rfl (by decide) (by decide)⟩

end RunAtests
